import Mathlib

/-!
# Verification of the Apex LLM-response recovery layer

Shallow embedding of the recovery pipeline in `src/agents/title_agent.py` and
`src/agents/content_agent.py`: the extraction step that isolates a JSON payload
from raw LLM text, the `_clean_json_string` repair step, strict JSON parsing
(modelling Python's `json.loads`), the `_parse_fallback_titles` line scan, the
fixed default records, and the `generate_titles` / `generate_content` services.

Strings are modelled as `List Char`.  Python `dict`s are modelled as ordered
association lists inside a `Json` value; Python dictionaries compare without
regard to insertion order, so field order in modelled records is canonical.
-/

namespace Apex

/-- Shorthand: the character list of a string literal. -/
def S (s : String) : List Char := s.data

/-- The backtick character (written via its code point). -/
def btick : Char := Char.ofNat 96

/-- The single-quote character (written via its code point). -/
def squote : Char := Char.ofNat 39

/-- Whitespace stripped by Python `str.strip()` / split by `str.split()`;
the characters for which `str.isspace` holds (ASCII part plus the Unicode
whitespace code points). -/
def isPySpace (c : Char) : Bool :=
  c = ' ' || c = '\t' || c = '\n' || c = '\r' || c = Char.ofNat 11 || c = Char.ofNat 12 ||
  c = Char.ofNat 28 || c = Char.ofNat 29 || c = Char.ofNat 30 || c = Char.ofNat 31 ||
  c = Char.ofNat 133 || c = Char.ofNat 160 || c = Char.ofNat 0x1680 ||
  (Char.ofNat 0x2000 ≤ c && c ≤ Char.ofNat 0x200a) ||
  c = Char.ofNat 0x2028 || c = Char.ofNat 0x2029 || c = Char.ofNat 0x202f ||
  c = Char.ofNat 0x205f || c = Char.ofNat 0x3000

/-- Python `str.lstrip()`. -/
def pyStripL (s : List Char) : List Char := s.dropWhile isPySpace

/-- Python `str.rstrip()`. -/
def pyStripR (s : List Char) : List Char := (s.reverse.dropWhile isPySpace).reverse

/-- Python `str.strip()`. -/
def pyStrip (s : List Char) : List Char := pyStripR (pyStripL s)

/-- Index of the first occurrence of character `c` (Python `str.find`,
with `none` for `-1`). -/
def findIdx (c : Char) : List Char → Option Nat
  | [] => none
  | x :: xs => if x = c then some 0 else (findIdx c xs).map (· + 1)

/-- Index of the last occurrence of character `c` (Python `str.rfind`,
with `none` for `-1`). -/
def rfindIdx (c : Char) : List Char → Option Nat
  | [] => none
  | x :: xs =>
    match rfindIdx c xs with
    | some j => some (j + 1)
    | none => if x = c then some 0 else none

/-- Does `sep` occur as a contiguous substring?  (Python `sep in s`.) -/
def occursIn (sep : List Char) : List Char → Bool
  | [] => false
  | c :: cs => sep.isPrefixOf (c :: cs) || occursIn sep cs

/-- Remove every occurrence of character `c` (Python `str.replace(c, "")`). -/
def removeChar (c : Char) (s : List Char) : List Char := s.filter (fun x => x ≠ c)

/-- Python `str.replace(sep, repl)` for a separator `c0 :: sepRest` (left to
right, non-overlapping, scanning resumes after each replacement).  Structural
on a fuel counter; every step consumes at least one character, so fuel equal
to the input length suffices. -/
def replaceSubF (c0 : Char) (sepRest repl : List Char) : Nat → List Char → List Char
  | 0, s => s
  | _ + 1, [] => []
  | f + 1, c :: cs =>
    if (c0 :: sepRest).isPrefixOf (c :: cs) then
      repl ++ replaceSubF c0 sepRest repl f (cs.drop sepRest.length)
    else
      c :: replaceSubF c0 sepRest repl f cs

/-- Python `str.replace(sep, repl)` for a separator `c0 :: sepRest`. -/
def replaceSub (c0 : Char) (sepRest repl s : List Char) : List Char :=
  replaceSubF c0 sepRest repl s.length s

/-- Python `str.split(sep)` for a separator `c0 :: sepRest` (always at least
one part; non-overlapping, left to right).  Structural on fuel, as above. -/
def splitSubF (c0 : Char) (sepRest : List Char) : Nat → List Char → List (List Char)
  | 0, s => [s]
  | _ + 1, [] => [[]]
  | f + 1, c :: cs =>
    if (c0 :: sepRest).isPrefixOf (c :: cs) then
      [] :: splitSubF c0 sepRest f (cs.drop sepRest.length)
    else
      match splitSubF c0 sepRest f cs with
      | [] => [[c]]
      | h :: t => (c :: h) :: t

/-- Python `str.split(sep)` for a separator `c0 :: sepRest`. -/
def splitSub (c0 : Char) (sepRest s : List Char) : List (List Char) :=
  splitSubF c0 sepRest s.length s

/-- Python `str.split(sep)` for a single-character separator, via an
accumulator for the chunk being built (in reverse). -/
def splitCharAux (sep : Char) (cur : List Char) : List Char → List (List Char)
  | [] => [cur.reverse]
  | c :: cs => if c = sep then cur.reverse :: splitCharAux sep [] cs else splitCharAux sep (c :: cur) cs

/-- Python `str.split(sep)` for a single-character separator. -/
def splitChar (sep : Char) (s : List Char) : List (List Char) := splitCharAux sep [] s

/-- Python `str.split(sep, 1)`: the parts before and after the first
occurrence of the single-character separator, if it occurs. -/
def splitFirstChar (sep : Char) : List Char → Option (List Char × List Char)
  | [] => none
  | c :: cs =>
    if c = sep then some ([], cs)
    else (splitFirstChar sep cs).map (fun p => (c :: p.1, p.2))

/-- The parts before and after the first occurrence of a multi-character
separator, if it occurs. -/
def splitFirstSub (sep : List Char) : List Char → Option (List Char × List Char)
  | [] => none
  | c :: cs =>
    if sep.isPrefixOf (c :: cs) then some ([], cs.drop (sep.length - 1))
    else (splitFirstSub sep cs).map (fun p => (c :: p.1, p.2))

/-- Python no-argument `str.split()`: words separated by runs of whitespace,
with no empty words.  `cur` is the word being built, in reverse. -/
def pyWordsAux (cur : List Char) : List Char → List (List Char)
  | [] => if cur.isEmpty then [] else [cur.reverse]
  | c :: cs =>
    if isPySpace c then
      if cur.isEmpty then pyWordsAux [] cs else cur.reverse :: pyWordsAux [] cs
    else pyWordsAux (c :: cur) cs

/-- Python no-argument `str.split()`. -/
def pyWords (s : List Char) : List (List Char) := pyWordsAux [] s

/-- The line-break characters recognised by Python `str.splitlines()`. -/
def isLineBreak (c : Char) : Bool :=
  c = '\n' || c = '\r' || c = Char.ofNat 11 || c = Char.ofNat 12 ||
  c = Char.ofNat 28 || c = Char.ofNat 29 || c = Char.ofNat 30 ||
  c = Char.ofNat 133 || c = Char.ofNat 0x2028 || c = Char.ofNat 0x2029

/-- Python `str.splitlines()` (a `"\r\n"` pair counts as one break, and a
terminal break produces no trailing empty line).  `cur` is reversed. -/
def pySplitlinesAux (cur : List Char) : List Char → List (List Char)
  | [] => if cur.isEmpty then [] else [cur.reverse]
  | '\r' :: '\n' :: cs => cur.reverse :: pySplitlinesAux [] cs
  | c :: cs =>
    if isLineBreak c then cur.reverse :: pySplitlinesAux [] cs
    else pySplitlinesAux (c :: cur) cs

/-- Python `str.splitlines()`. -/
def pySplitlines (s : List Char) : List (List Char) := pySplitlinesAux [] s

/-- Is `c` an ASCII decimal digit? -/
def isDigitCh (c : Char) : Bool := '0' ≤ c && c ≤ '9'

/-- Accumulate decimal digits with Python `int()`'s underscore rule: a single
underscore may stand between two digits.  `acc` is the value so far. -/
def digitsUAux (acc : Nat) : List Char → Option Nat
  | [] => some acc
  | '_' :: d :: r => if isDigitCh d then digitsUAux (acc * 10 + (d.toNat - 48)) r else none
  | '_' :: [] => none
  | d :: r => if isDigitCh d then digitsUAux (acc * 10 + (d.toNat - 48)) r else none

/-- A nonempty digit string (with Python's underscore grouping) to a number. -/
def digitsU : List Char → Option Nat
  | [] => none
  | c :: r => if isDigitCh c then digitsUAux (c.toNat - 48) r else none

/-- Python `int(str)`: surrounding whitespace allowed, optional sign, ASCII
decimal digits (Python also accepts other Unicode digits, which never arise
here); `none` models `ValueError`. -/
def pyInt (s : List Char) : Option Int :=
  match pyStrip s with
  | '+' :: r => (digitsU r).map (fun n => (n : Int))
  | '-' :: r => (digitsU r).map (fun n => -(n : Int))
  | r => (digitsU r).map (fun n => (n : Int))

/-!
## Strict JSON values and parsing, modelling Python `json.loads`

`json.loads` with default arguments: strict RFC 8259 grammar plus the
`NaN` / `Infinity` / `-Infinity` constants.  Fractional or exponent numbers
become Python floats; no claim inspects a float's value, so they are kept as
their source token.  A parse error (`json.JSONDecodeError`) is `none`.
-/

/-- A parsed JSON value (the result of `json.loads`).  Objects keep their
fields as an ordered association list; the concrete inputs used below have no
duplicate keys, so the Python last-wins rule for duplicates never bites. -/
inductive Json where
  | null
  | bool (b : Bool)
  | intNum (n : Int)
  | floatLit (tok : List Char)
  | str (s : List Char)
  | arr (elems : List Json)
  | obj (fields : List (List Char × Json))

/-- JSON inter-token whitespace (only these four, per RFC 8259). -/
def isJsonWs (c : Char) : Bool := c = ' ' || c = '\t' || c = '\n' || c = '\r'

/-- Skip JSON whitespace. -/
def skipWs (s : List Char) : List Char := s.dropWhile isJsonWs

/-- Hex digit value, if `c` is one. -/
def hexVal (c : Char) : Option Nat :=
  if '0' ≤ c && c ≤ '9' then some (c.toNat - 48)
  else if 'a' ≤ c && c ≤ 'f' then some (c.toNat - 87)
  else if 'A' ≤ c && c ≤ 'F' then some (c.toNat - 55)
  else none

/-- Parse the body of a JSON string after the opening quote: returns the
decoded characters and the remaining input after the closing quote.  Strict
mode: raw control characters are rejected; `\uXXXX` becomes the code point
(surrogate-pair combination, which never arises here, is not modelled). -/
def parseStrBody : Nat → List Char → Option (List Char × List Char)
  | 0, _ => none
  | _ + 1, [] => none
  | _ + 1, '"' :: rest => some ([], rest)
  | f + 1, '\\' :: rest =>
    match rest with
    | [] => none
    | e :: rest2 =>
      let cont : Char → List Char → Option (List Char × List Char) := fun c r =>
        (parseStrBody f r).map (fun p => (c :: p.1, p.2))
      if e = '"' then cont '"' rest2
      else if e = '\\' then cont '\\' rest2
      else if e = '/' then cont '/' rest2
      else if e = 'b' then cont (Char.ofNat 8) rest2
      else if e = 'f' then cont (Char.ofNat 12) rest2
      else if e = 'n' then cont '\n' rest2
      else if e = 'r' then cont '\r' rest2
      else if e = 't' then cont '\t' rest2
      else if e = 'u' then
        match rest2 with
        | h1 :: h2 :: h3 :: h4 :: rest3 =>
          match hexVal h1, hexVal h2, hexVal h3, hexVal h4 with
          | some v1, some v2, some v3, some v4 =>
            cont (Char.ofNat (((v1 * 16 + v2) * 16 + v3) * 16 + v4)) rest3
          | _, _, _, _ => none
        | _ => none
      else none
  | f + 1, c :: rest =>
    if c.toNat < 32 then none
    else (parseStrBody f rest).map (fun p => (c :: p.1, p.2))

/-- Value of a list of decimal digit characters. -/
def digitsVal (ds : List Char) : Nat :=
  ds.foldl (fun acc c => acc * 10 + (c.toNat - 48)) 0

/-- Parse a JSON number starting at the current position: optional minus,
integer part without leading zeros, optional fraction and exponent.  A pure
integer becomes `Json.intNum`; anything with a fraction or exponent becomes a
float and is kept as its token. -/
def parseNum (cs : List Char) : Option (Json × List Char) :=
  let (neg, cs1) := match cs with
    | '-' :: t => (true, t)
    | _ => (false, cs)
  let intPart := cs1.takeWhile isDigitCh
  if intPart.isEmpty then none
  else if intPart.length > 1 && intPart.headD ' ' = '0' then none
  else
    let rest1 := cs1.drop intPart.length
    let (fracPart, rest2) := match rest1 with
      | '.' :: t =>
        let ds := t.takeWhile isDigitCh
        if ds.isEmpty then ([], rest1) else ('.' :: ds, t.drop ds.length)
      | _ => ([], rest1)
    let (expPart, rest3) := match rest2 with
      | e :: t =>
        if e = 'e' || e = 'E' then
          let (sgn, t2) := match t with
            | '+' :: u => (['+'], u)
            | '-' :: u => (['-'], u)
            | _ => (([] : List Char), t)
          let ds := t2.takeWhile isDigitCh
          if ds.isEmpty then ([], rest2) else (e :: (sgn ++ ds), t2.drop ds.length)
        else ([], rest2)
      | _ => ([], rest2)
    if fracPart.isEmpty && expPart.isEmpty then
      let v : Int := (digitsVal intPart : Nat)
      some (Json.intNum (if neg then -v else v), rest1)
    else
      let tok := (if neg then ['-'] else []) ++ intPart ++ fracPart ++ expPart
      some (Json.floatLit tok, rest3)

mutual

/-- Parse one JSON value at the current position (no leading whitespace). -/
def parseVal : Nat → List Char → Option (Json × List Char)
  | 0, _ => none
  | _ + 1, [] => none
  | f + 1, cs@(c :: rest) =>
    if c = '"' then
      (parseStrBody (rest.length + 1) rest).map (fun p => (Json.str p.1, p.2))
    else if c = '{' then
      match skipWs rest with
      | '}' :: r2 => some (Json.obj [], r2)
      | r => (parseObjFields f r).map (fun p => (Json.obj p.1, p.2))
    else if c = '[' then
      match skipWs rest with
      | ']' :: r2 => some (Json.arr [], r2)
      | r => (parseArrElems f r).map (fun p => (Json.arr p.1, p.2))
    else if (S "true").isPrefixOf cs then some (Json.bool true, cs.drop 4)
    else if (S "false").isPrefixOf cs then some (Json.bool false, cs.drop 5)
    else if (S "null").isPrefixOf cs then some (Json.null, cs.drop 4)
    else if (S "NaN").isPrefixOf cs then some (Json.floatLit (S "NaN"), cs.drop 3)
    else if (S "Infinity").isPrefixOf cs then some (Json.floatLit (S "Infinity"), cs.drop 8)
    else if (S "-Infinity").isPrefixOf cs then some (Json.floatLit (S "-Infinity"), cs.drop 9)
    else parseNum cs

/-- Parse `value (, value)* ]` inside an array (current position at a value,
whitespace already skipped). -/
def parseArrElems : Nat → List Char → Option (List Json × List Char)
  | 0, _ => none
  | f + 1, cs => do
    let (v, r) ← parseVal f cs
    match skipWs r with
    | ',' :: r2 => (parseArrElems f (skipWs r2)).map (fun p => (v :: p.1, p.2))
    | ']' :: r2 => some ([v], r2)
    | _ => none

/-- Parse `"key" : value (, "key" : value)* }` inside an object (current
position at a key, whitespace already skipped). -/
def parseObjFields : Nat → List Char → Option (List (List Char × Json) × List Char)
  | 0, _ => none
  | f + 1, cs =>
    match cs with
    | '"' :: r => do
      let (k, r1) ← parseStrBody (r.length + 1) r
      match skipWs r1 with
      | ':' :: r3 => do
        let (v, r4) ← parseVal f (skipWs r3)
        match skipWs r4 with
        | ',' :: r6 => (parseObjFields f (skipWs r6)).map (fun p => ((k, v) :: p.1, p.2))
        | '}' :: r6 => some ([(k, v)], r6)
        | _ => none
      | _ => none
    | _ => none

end

/-- Python `json.loads`: skip surrounding whitespace, one strict parse, and
the whole input must be consumed.  `none` models `json.JSONDecodeError`. -/
def jsonParse (s : List Char) : Option Json :=
  let t := skipWs s
  match parseVal (t.length + 1) t with
  | some (v, rest) => if skipWs rest = [] then some v else none
  | none => none

/-- Look up a key in a parsed object (our records have no duplicate keys). -/
def objGet (k : List Char) : Json → Option Json
  | Json.obj fields => (fields.find? (fun p => p.1 == k)).map (fun p => p.2)
  | _ => none

/-!
## StructureRepair: `_clean_json_string`

From `title_agent.py` lines 104-110 and `content_agent.py` lines 295-313
(both agents define the same function):
`json_str.replace(',]', ']').replace(',}', '}')` followed by
`re.sub(r'([\x7b,]\s*)([a-zA-Z_][a-zA-Z0-9_]*)\s*:', r'\1"\2":', json_str)`.
-/

/-- Start of a regex identifier `[a-zA-Z_]`. -/
def isIdentStart (c : Char) : Bool :=
  ('a' ≤ c && c ≤ 'z') || ('A' ≤ c && c ≤ 'Z') || c = '_'

/-- Regex identifier continuation `[a-zA-Z0-9_]`. -/
def isIdentCh (c : Char) : Bool := isIdentStart c || isDigitCh c

/-- Try to match the bare-key pattern `([\x7b,]\s*)([a-zA-Z_][a-zA-Z0-9_]*)\s*:`
at the start of `s`.  The character classes are pairwise disjoint and none
contains `:`, so the greedy match needs no backtracking.  On success returns
(group 1, group 2, input after the match); Python's `re` module's `\s` matches
the same whitespace set as `str.isspace`. -/
def keyMatch (s : List Char) : Option (List Char × List Char × List Char) :=
  match s with
  | [] => none
  | d :: rest =>
    if d = '{' || d = ',' then
      let ws := rest.takeWhile isPySpace
      match rest.drop ws.length with
      | [] => none
      | c0 :: r2 =>
        if isIdentStart c0 then
          let identRest := r2.takeWhile isIdentCh
          let r3 := r2.drop identRest.length
          let ws2 := r3.takeWhile isPySpace
          match r3.drop ws2.length with
          | ':' :: r5 => some (d :: ws, c0 :: identRest, r5)
          | _ => none
        else none
    else none

/-- One pass of `re.sub` with the bare-key pattern and replacement
`\1"\2":` (note the replacement drops the whitespace matched between the
identifier and the colon, which is outside both groups); scanning resumes
after each replaced match.  Fuel ≥ input length suffices since every step
consumes at least one character. -/
def cleanKeysF : Nat → List Char → List Char
  | 0, s => s
  | _ + 1, [] => []
  | f + 1, c :: cs =>
    match keyMatch (c :: cs) with
    | some (pre, ident, rest) => pre ++ '"' :: (ident ++ '"' :: ':' :: cleanKeysF f rest)
    | none => c :: cleanKeysF f cs

/-- The `re.sub` call of `_clean_json_string`. -/
def cleanKeys (s : List Char) : List Char := cleanKeysF s.length s

/-- `_clean_json_string` (identical in both agents): remove `,]` and `,}`
pairs, then double-quote bare identifier keys.  Single-quoted values are
deliberately left untouched (the broad quote replacement is commented out in
the source). -/
def cleanJson (s : List Char) : List Char :=
  cleanKeys (replaceSub ',' ['}'] ['}'] (replaceSub ',' [']'] [']'] s))

/-- Does the bare-key pattern match anywhere in `s`? -/
def hasKeyMatch : List Char → Bool
  | [] => false
  | c :: cs => (keyMatch (c :: cs)).isSome || hasKeyMatch cs

/-!
## ResponseExtractor

From `generate_titles` (`title_agent.py` lines 69-82, delimiters `[` `]`) and
`generate_content` (`content_agent.py` lines 119-132, delimiters `{` `}`);
`analyze_title_performance` / `optimize_for_platform` /
`analyze_content_performance` use the same shape with `{` `}`.
-/

/-- The fenced-block marker stripped by the extractor. -/
def fenceTag : List Char := S "```json"

/-- Trailing fence. -/
def tick3 : List Char := S "```"

/-- The extraction step shared by the services, parameterised by the expected
delimiter pair (`[`/`]` for arrays, `{`/`}` for objects).  Mirrors the source:
strip; if the text starts with ```` ```json ```` drop 7 characters and a
trailing ```` ``` ```` and strip again; else if it does not already start and
end with the delimiters, slice from the first opening delimiter to one past
the last closing delimiter — `end_idx` is `rfind + 1`, so the `!= -1` test on
it can never fail, and a missing closing delimiter yields `rfind = -1`,
`end_idx = 0` and an empty slice. -/
def extract (op cl : Char) (raw : List Char) : List Char :=
  let s := pyStrip raw
  if fenceTag.isPrefixOf s then
    let s1 := s.drop 7
    let s2 := if tick3.isSuffixOf s1 then s1.take (s1.length - 3) else s1
    pyStrip s2
  else if !([op].isPrefixOf s && [cl].isSuffixOf s) then
    let startIdx : Int := match findIdx op s with
      | some i => (i : Int)
      | none => -1
    let endIdx : Int := (match rfindIdx cl s with
      | some j => (j : Int)
      | none => -1) + 1
    if startIdx ≠ -1 ∧ endIdx ≠ -1 then
      (s.drop startIdx.toNat).take (endIdx.toNat - startIdx.toNat)
    else s
  else s

/-!
## FallbackSynthesizer for titles: `_parse_fallback_titles`

From `title_agent.py` lines 112-152.
-/

/-- The in-progress candidate dict of the fallback line scan.  A Python dict
with keys among `title`, `seo_score`, `reasoning`; an unset field models an
absent key. -/
structure TD where
  title : Option (List Char) := none
  seo : Option Int := none
  reasoning : Option (List Char) := none
deriving DecidableEq

/-- Python truthiness of the dict: nonempty. -/
def TD.truthy (t : TD) : Bool := t.title.isSome || t.seo.isSome || t.reasoning.isSome

/-- `"title" in d and "seo_score" in d and "reasoning" in d`. -/
def TD.complete (t : TD) : Bool := t.title.isSome && t.seo.isSome && t.reasoning.isSome

/-- The marker `"title":` searched for on each line. -/
def titleMarker : List Char := S "\"title\":"

/-- The marker `"seo_score":`. -/
def seoMarker : List Char := S "\"seo_score\":"

/-- The marker `"reasoning":`. -/
def reasonMarker : List Char := S "\"reasoning\":"

/-- `line_strip.split('"title":')[1].split(',')[0].replace('"', '').strip()`,
with `none` for the (unreachable) `IndexError` on the `[1]`. -/
def titleFieldValue (ls : List Char) : Option (List Char) :=
  ((splitSub '"' (titleMarker.drop 1) ls).get? 1).map
    (fun part => pyStrip (removeChar '"' ((splitChar ',' part).headD [])))

/-- `int(line_strip.split('"seo_score":')[1].split(',')[0].strip())` with the
`except (IndexError, ValueError)` default of 7. -/
def seoFieldValue (ls : List Char) : Int :=
  match (splitSub '"' (seoMarker.drop 1) ls).get? 1 with
  | some part =>
    match pyInt (pyStrip ((splitChar ',' part).headD [])) with
    | some n => n
    | none => 7
  | none => 7

/-- `line_strip.split('"reasoning":')[1].replace('"', '').replace('}', '').strip()`,
with `none` for the (unreachable) `IndexError`. -/
def reasoningFieldValue (ls : List Char) : Option (List Char) :=
  ((splitSub '"' (reasonMarker.drop 1) ls).get? 1).map
    (fun part => pyStrip (removeChar '}' (removeChar '"' part)))

/-- One line of the first fallback pass: state is (current candidate,
accumulated complete candidates). -/
def pass1Line (st : TD × List TD) (line : List Char) : TD × List TD :=
  let cur := st.1
  let acc := st.2
  let ls := pyStrip line
  if occursIn titleMarker ls then
    let acc2 := if cur.truthy then (if cur.complete then acc ++ [cur] else acc) else acc
    ({ title := titleFieldValue ls, seo := none, reasoning := none }, acc2)
  else if occursIn seoMarker ls && cur.truthy then
    ({ cur with seo := some (seoFieldValue ls) }, acc)
  else if occursIn reasonMarker ls && cur.truthy then
    (match reasoningFieldValue ls with
     | some v => { cur with reasoning := some v }
     | none => cur, acc)
  else (cur, acc)

/-- The first fallback pass: scan `content.split('\n')`, flushing a complete
candidate whenever a new `"title":` line starts, plus a final flush. -/
def pass1 (content : List Char) : List TD :=
  let fin := (splitChar '\n' content).foldl pass1Line ({}, [])
  if fin.1.truthy && fin.1.complete then fin.2 ++ [fin.1] else fin.2

/-- A complete candidate dict as a record (field order canonicalised; Python
dicts compare without regard to insertion order). -/
def tdToJson (t : TD) : Json :=
  Json.obj [(S "title", Json.str (t.title.getD [])),
            (S "seo_score", Json.intNum (t.seo.getD 0)),
            (S "reasoning", Json.str (t.reasoning.getD []))]

/-- One line of the looser second pass: a line whose stripped form starts with
`Title:` or `"title":` yields `line.split(":", 1)[-1].strip().replace('"', '')
.replace(',', '')` as a minimal candidate when its length is in (10, 100). -/
def pass2Line (line : List Char) : Option Json :=
  let ls := pyStrip line
  if (S "Title:").isPrefixOf ls || titleMarker.isPrefixOf ls then
    let afterColon := match splitFirstChar ':' line with
      | some p => p.2
      | none => line
    let t := removeChar ',' (removeChar '"' (pyStrip afterColon))
    if 10 < t.length ∧ t.length < 100 then
      some (Json.obj [(S "title", Json.str t),
                      (S "seo_score", Json.intNum 7),
                      (S "reasoning", Json.str (S "Fallback parsed title with good potential"))])
    else none
  else none

/-- `_parse_fallback_titles`: the structured first pass, the looser second
pass when the first found nothing, truncated to 5. -/
def fallbackTitles (content : List Char) : List Json :=
  let t1 := pass1 content
  let titles := if t1.isEmpty then (pySplitlines content).filterMap pass2Line
                else t1.map tdToJson
  titles.take 5

/-!
## Fixed default records and the services
-/

/-- `_get_default_titles(topic)` (`title_agent.py` lines 154-167). -/
def defaultTitles (topic : List Char) : List Json :=
  [Json.obj [(S "title", Json.str (S "The Ultimate Guide to " ++ topic)),
             (S "seo_score", Json.intNum 8),
             (S "reasoning", Json.str (S "Ultimate guides perform well in search results (default fallback)"))],
   Json.obj [(S "title", Json.str (S "5 Proven Strategies for " ++ topic ++ S " Success")),
             (S "seo_score", Json.intNum 7),
             (S "reasoning", Json.str (S "Number-based titles attract clicks (default fallback)"))]]

/-- `_extract_hashtags` (`content_agent.py` lines 220-224): whitespace-split
words starting with `#`, at most 10. -/
def extractHashtags (content : List Char) : List (List Char) :=
  ((pyWords content).filter (fun w => ['#'].isPrefixOf w)).take 10

/-- `_get_default_content(title, topic, content_format)` (`content_agent.py`
lines 226-235). -/
def defaultContent (title topic fmt : List Char) : Json :=
  Json.obj [(S "content", Json.str (S "Exploring " ++ topic ++ S ": " ++ title ++
              S "\n\nThis is an engaging piece about " ++ topic ++
              S " that provides valuable insights for our audience. Stay tuned for more updates!")),
            (S "hashtags", Json.arr [Json.str (S "#content"), Json.str (S "#strategy"),
                                     Json.str (S "#marketing")]),
            (S "engagement_score", Json.intNum 6),
            (S "platform_optimization", Json.str (S "Basic optimization for " ++ fmt ++
              S " (default fallback content).")),
            (S "cta", Json.str (S "What are your thoughts on this topic?")),
            (S "estimated_reach", Json.str (S "Moderate reach potential (default fallback content)."))]

/-- The record `generate_content` builds inline on `json.JSONDecodeError`
(`content_agent.py` lines 141-148). -/
def parseFailRecord (raw fmt : List Char) : Json :=
  Json.obj [(S "content", Json.str raw),
            (S "hashtags", Json.arr ((extractHashtags raw).map Json.str)),
            (S "engagement_score", Json.intNum 5),
            (S "platform_optimization", Json.str (S "Failed to parse structured output for " ++ fmt ++
              S ". Raw LLM output provided.")),
            (S "cta", Json.str (S "Review content manually.")),
            (S "estimated_reach", Json.str (S "Unknown (parsing error)"))]

/-- `generate_titles` from the raw LLM response text onward
(`title_agent.py` lines 69-98): extract with `[` `]`, repair, parse; a parsed
list is returned as is; a parsed non-list falls back to the defaults; a parse
error runs `_parse_fallback_titles` on the *raw* response and falls back to
the defaults when that is empty. -/
def titlesPipeline (raw topic : List Char) : List Json :=
  match jsonParse (cleanJson (extract '[' ']' raw)) with
  | some (Json.arr l) => l
  | some _ => defaultTitles topic
  | none =>
    if (fallbackTitles raw).isEmpty then defaultTitles topic else fallbackTitles raw

/-- `generate_content` from the raw LLM response text onward
(`content_agent.py` lines 119-148): extract with `{` `}`, repair, parse; any
parsed value is returned as is (no shape check); a parse error yields the
inline parse-failure record. -/
def contentPipeline (raw fmt : List Char) : Json :=
  match jsonParse (cleanJson (extract '{' '}' raw)) with
  | some v => v
  | none => parseFailRecord raw fmt

/-- The LLM collaborator's outcome: response text, or any raised exception
(carried as its message). -/
abbrev LLMResult := Except (List Char) (List Char)

/-- `generate_titles` including the outer `try`/`except` (`title_agent.py`
lines 56-102): an exception from the LLM call yields the default titles. -/
def generateTitles (resp : LLMResult) (topic : List Char) : List Json :=
  match resp with
  | Except.error _ => defaultTitles topic
  | Except.ok raw => titlesPipeline raw topic

/-- `generate_content` including the outer `try`/`except` (`content_agent.py`
lines 103-152): an exception from the LLM call yields the default record. -/
def generateContent (resp : LLMResult) (title topic fmt : List Char) : Json :=
  match resp with
  | Except.error _ => defaultContent title topic fmt
  | Except.ok raw => contentPipeline raw fmt

/-!
## Claim-side definition for the C10 refinement comparison
-/

/-- Modelled from the claim's words, for comparison with `titleFieldValue`:
"the text between the marker and the first following comma on that line with
every double-quote character removed and surrounding whitespace stripped". -/
def claimTitleValue (ls : List Char) : Option (List Char) :=
  (splitFirstSub titleMarker ls).map
    (fun p => pyStrip (removeChar '"' (p.2.takeWhile (fun c => c != ','))))

/-- `sep` has no nonempty proper border (no proper suffix of it is also a
prefix); an occurrence of a border-free separator cannot straddle a known
occurrence, which pins down where left-to-right scans split. -/
def borderFree (sep : List Char) : Prop :=
  ∀ k < sep.length, 0 < k → sep.drop k ≠ sep.take (sep.length - k)

/-!
## Supporting lemmas
-/

theorem titlesPipeline_parse_arr (raw topic : List Char) (l : List Json)
    (h : jsonParse (cleanJson (extract '[' ']' raw)) = some (Json.arr l)) :
    titlesPipeline raw topic = l := by
  unfold titlesPipeline; rw [h]

theorem titlesPipeline_parse_not_arr (raw topic : List Char) (v : Json)
    (h : jsonParse (cleanJson (extract '[' ']' raw)) = some v)
    (hv : ∀ l, v ≠ Json.arr l) :
    titlesPipeline raw topic = defaultTitles topic := by
  unfold titlesPipeline
  rw [h]
  cases v with
  | arr l => exact absurd rfl (hv l)
  | null => rfl
  | bool b => rfl
  | intNum n => rfl
  | floatLit t => rfl
  | str s => rfl
  | obj fields => rfl

theorem titlesPipeline_parse_none (raw topic : List Char)
    (h : jsonParse (cleanJson (extract '[' ']' raw)) = none) :
    titlesPipeline raw topic =
      if (fallbackTitles raw).isEmpty then defaultTitles topic else fallbackTitles raw := by
  unfold titlesPipeline; rw [h]

theorem contentPipeline_parse_some (raw fmt : List Char) (v : Json)
    (h : jsonParse (cleanJson (extract '{' '}' raw)) = some v) :
    contentPipeline raw fmt = v := by
  unfold contentPipeline; rw [h]

theorem fallbackTitles_le_five (content : List Char) :
    (fallbackTitles content).length ≤ 5 := by
  simp only [fallbackTitles]
  exact List.length_take_le _ _

theorem defaultTitles_length (topic : List Char) : (defaultTitles topic).length = 2 := rfl

theorem replaceSubF_no_occur (c0 : Char) (sepRest repl : List Char) :
    ∀ (f : Nat) (s : List Char), occursIn (c0 :: sepRest) s = false →
      replaceSubF c0 sepRest repl f s = s := by
  intro f
  induction f with
  | zero => intro s _; rfl
  | succ f ih =>
    intro s h
    cases s with
    | nil => rfl
    | cons c cs =>
      simp only [occursIn, Bool.or_eq_false_iff] at h
      unfold replaceSubF
      rw [h.1]
      simp only [Bool.false_eq_true, if_false, ih cs h.2]

theorem cleanKeysF_no_match :
    ∀ (f : Nat) (s : List Char), hasKeyMatch s = false → cleanKeysF f s = s := by
  intro f
  induction f with
  | zero => intro s _; rfl
  | succ f ih =>
    intro s h
    cases s with
    | nil => rfl
    | cons c cs =>
      simp only [hasKeyMatch, Bool.or_eq_false_iff] at h
      cases hk : keyMatch (c :: cs) with
      | some val => rw [hk] at h; simp at h
      | none =>
        unfold cleanKeysF
        rw [hk, ih cs h.2]

theorem dropWhile_dropWhile (p : Char → Bool) (l : List Char) :
    (l.dropWhile p).dropWhile p = l.dropWhile p := by
  induction l with
  | nil => rfl
  | cons c cs ih =>
    by_cases h : p c
    · simp [List.dropWhile_cons, h, ih]
    · simp [List.dropWhile_cons, h]

theorem pyStripL_idem (s : List Char) : pyStripL (pyStripL s) = pyStripL s :=
  dropWhile_dropWhile _ s

theorem pyStripR_idem (s : List Char) : pyStripR (pyStripR s) = pyStripR s := by
  unfold pyStripR
  rw [List.reverse_reverse, dropWhile_dropWhile]

theorem dropWhile_eq_self_of_head (p : Char → Bool) (l : List Char) (c : Char)
    (hc : l.head? = some c) (hp : p c = false) : l.dropWhile p = l := by
  cases l with
  | nil => simp at hc
  | cons x xs =>
    have hx : x = c := by
      rw [List.head?_cons] at hc
      injection hc
    subst hx
    simp [List.dropWhile_cons, hp]

theorem prefix_head_eq (u t : List Char) (h : u <+: t) (hu : u ≠ []) :
    t.head? = u.head? := by
  obtain ⟨r, rfl⟩ := h
  cases u with
  | nil => exact absurd rfl hu
  | cons x xs => rfl

theorem pyStripR_prefix (t : List Char) : pyStripR t <+: t := by
  unfold pyStripR
  conv_rhs => rw [← List.reverse_reverse t]
  exact List.reverse_prefix.mpr (List.dropWhile_suffix isPySpace)

theorem pyStripL_of_stripR (t : List Char) (h : pyStripL t = t) :
    pyStripL (pyStripR t) = pyStripR t := by
  cases hr : pyStripR t with
  | nil => rfl
  | cons c cs =>
    have hpre : (c :: cs) <+: t := hr ▸ pyStripR_prefix t
    have hh : t.head? = some c := by
      rw [prefix_head_eq _ _ hpre (List.cons_ne_nil c cs)]; rfl
    have hp : isPySpace c = false := by
      cases t with
      | nil => simp at hh
      | cons x xs =>
        have hx : x = c := by rw [List.head?_cons] at hh; injection hh
        subst hx
        by_contra hcontra
        rw [Bool.not_eq_false] at hcontra
        unfold pyStripL at h
        rw [List.dropWhile_cons, if_pos hcontra] at h
        have hlen := congrArg List.length h
        have hle := (List.dropWhile_suffix (l := xs) isPySpace).sublist.length_le
        simp at hlen
        omega
    exact dropWhile_eq_self_of_head isPySpace (c :: cs) c rfl hp

theorem pyStrip_idem (s : List Char) : pyStrip (pyStrip s) = pyStrip s := by
  unfold pyStrip
  rw [pyStripL_of_stripR (pyStripL s) (pyStripL_idem s), pyStripR_idem]

theorem pyStrip_sandwich (op cl : Char) (mid : List Char)
    (hop : isPySpace op = false) (hcl : isPySpace cl = false) :
    pyStrip (op :: (mid ++ [cl])) = op :: (mid ++ [cl]) := by
  unfold pyStrip
  have hL : pyStripL (op :: (mid ++ [cl])) = op :: (mid ++ [cl]) :=
    dropWhile_eq_self_of_head isPySpace _ op rfl hop
  rw [hL]
  unfold pyStripR
  have hrev : (op :: (mid ++ [cl])).reverse = cl :: (mid.reverse ++ [op]) := by simp
  have hdw : (cl :: (mid.reverse ++ [op])).dropWhile isPySpace = cl :: (mid.reverse ++ [op]) :=
    dropWhile_eq_self_of_head isPySpace (cl :: (mid.reverse ++ [op])) cl rfl hcl
  rw [hrev, hdw, ← hrev, List.reverse_reverse]

theorem findIdx_decomp (c : Char) :
    ∀ (s : List Char) (i : Nat), findIdx c s = some i →
      ∃ pre post, s = pre ++ c :: post ∧ pre.length = i := by
  intro s
  induction s with
  | nil => intro i h; simp [findIdx] at h
  | cons x xs ih =>
    intro i h
    unfold findIdx at h
    by_cases hx : x = c
    · rw [if_pos hx] at h
      injection h with h1
      exact ⟨[], xs, by rw [hx]; rfl, by simp [← h1]⟩
    · rw [if_neg hx] at h
      cases hf : findIdx c xs with
      | none => rw [hf] at h; simp at h
      | some j =>
        rw [hf] at h
        rw [show Option.map (fun x => x + 1) (some j) = some (j + 1) from rfl] at h
        injection h with h1
        obtain ⟨pre, post, hs, hl⟩ := ih j hf
        exact ⟨x :: pre, post, by rw [List.cons_append, ← hs], by simp [hl, ← h1]⟩

theorem rfindIdx_decomp (c : Char) :
    ∀ (s : List Char) (j : Nat), rfindIdx c s = some j →
      ∃ pre post, s = pre ++ c :: post ∧ pre.length = j := by
  intro s
  induction s with
  | nil => intro j h; simp [rfindIdx] at h
  | cons x xs ih =>
    intro j h
    unfold rfindIdx at h
    cases hf : rfindIdx c xs with
    | some j2 =>
      rw [hf] at h
      injection h with h1
      obtain ⟨pre, post, hs, hl⟩ := ih j2 hf
      exact ⟨x :: pre, post, by rw [List.cons_append, ← hs], by simp [hl, ← h1]⟩
    | none =>
      rw [hf] at h
      by_cases hx : x = c
      · rw [if_pos hx] at h
        injection h with h1
        exact ⟨[], xs, by rw [hx]; rfl, by simp [← h1]⟩
      · rw [if_neg hx] at h
        exact absurd h (by simp)

theorem slice_shape (s : List Char) (op cl : Char) (i j : Nat)
    (p1 q1 p2 q2 : List Char)
    (hs1 : s = p1 ++ op :: q1) (hl1 : p1.length = i)
    (hs2 : s = p2 ++ cl :: q2) (hl2 : p2.length = j)
    (hij : i < j) :
    ∃ mid, (s.drop i).take (j + 1 - i) = op :: (mid ++ [cl]) := by
  have h1 : p1 ++ [op] = s.take (i + 1) := by
    rw [hs1, List.take_append_eq_append_take,
      List.take_of_length_le (by omega : p1.length ≤ i + 1)]
    congr 1
    rw [hl1, Nat.add_sub_cancel_left]
    rfl
  have h2 : p2 = s.take j := by
    rw [hs2, List.take_append_eq_append_take,
      List.take_of_length_le (by omega : p2.length ≤ j), hl2, Nat.sub_self,
      List.take_zero, List.append_nil]
  have hp2 : p1 ++ [op] <+: p2 := by
    rw [h1, h2, show s.take (i + 1) = (s.take j).take (i + 1) from by
      rw [List.take_take, min_eq_left (by omega)]]
    exact List.take_prefix _ _
  obtain ⟨mid0, hmid⟩ := hp2
  have hsplit : s = p1 ++ op :: (mid0 ++ cl :: q2) := by
    rw [hs2, ← hmid]
    simp
  have hq1 : q1 = mid0 ++ cl :: q2 := by
    have := hs1.symm.trans hsplit
    have h3 := List.append_cancel_left this
    injection h3
  have hdrop : s.drop i = op :: q1 := by
    rw [hs1, ← hl1, List.drop_left]
  have hjlen : j = i + 1 + mid0.length := by
    have := congrArg List.length hmid
    simp at this
    omega
  refine ⟨mid0, ?_⟩
  rw [hdrop, show j + 1 - i = (j - i) + 1 from by omega, List.take_succ_cons, hq1]
  congr 1
  rw [List.take_append_eq_append_take,
    List.take_of_length_le (by omega : mid0.length ≤ j - i),
    show j - i - mid0.length = 1 from by omega]
  rfl

theorem fence_not_prefix_cons (c : Char) (t : List Char) (hc : c ≠ btick) :
    fenceTag.isPrefixOf (c :: t) = false := by
  have hft : fenceTag = btick :: S "``json" := rfl
  rw [hft]
  show (btick == c && (S "``json").isPrefixOf t) = false
  have : (btick == c) = false := beq_eq_false_iff_ne.mpr (Ne.symm hc)
  rw [this, Bool.false_and]

theorem extract_already (op cl : Char) (raw : List Char)
    (hfence : fenceTag.isPrefixOf (pyStrip raw) = false)
    (hb : ([op].isPrefixOf (pyStrip raw) && [cl].isSuffixOf (pyStrip raw)) = true) :
    extract op cl raw = pyStrip raw := by
  unfold extract
  dsimp only
  rw [hfence, hb]
  simp

theorem extract_no_open (op cl : Char) (raw : List Char)
    (hfence : fenceTag.isPrefixOf (pyStrip raw) = false)
    (hb : ([op].isPrefixOf (pyStrip raw) && [cl].isSuffixOf (pyStrip raw)) = false)
    (hf : findIdx op (pyStrip raw) = none) :
    extract op cl raw = pyStrip raw := by
  unfold extract
  dsimp only
  rw [hfence, hb, hf]
  simp

theorem extract_span_some (op cl : Char) (raw : List Char) (i j : Nat)
    (hfence : fenceTag.isPrefixOf (pyStrip raw) = false)
    (hb : ([op].isPrefixOf (pyStrip raw) && [cl].isSuffixOf (pyStrip raw)) = false)
    (hf : findIdx op (pyStrip raw) = some i)
    (hrf : rfindIdx cl (pyStrip raw) = some j) :
    extract op cl raw = ((pyStrip raw).drop i).take (j + 1 - i) := by
  unfold extract
  dsimp only
  rw [hfence, hb, hf, hrf]
  simp only [Bool.false_eq_true, if_false, Bool.not_false, if_true]
  rw [if_pos (show (i : Int) ≠ -1 ∧ (j : Int) + 1 ≠ -1 by constructor <;> omega),
    show ((j : Int) + 1).toNat = j + 1 from by omega,
    show ((i : Int)).toNat = i from by omega]

theorem extract_span_no_close (op cl : Char) (raw : List Char) (i : Nat)
    (hfence : fenceTag.isPrefixOf (pyStrip raw) = false)
    (hb : ([op].isPrefixOf (pyStrip raw) && [cl].isSuffixOf (pyStrip raw)) = false)
    (hf : findIdx op (pyStrip raw) = some i)
    (hrf : rfindIdx cl (pyStrip raw) = none) :
    extract op cl raw = [] := by
  unfold extract
  dsimp only
  rw [hfence, hb, hf, hrf]
  simp only [Bool.false_eq_true, if_false, Bool.not_false, if_true]
  rw [if_pos (show (i : Int) ≠ -1 ∧ (-1 : Int) + 1 ≠ -1 by constructor <;> omega),
    show ((-1 : Int) + 1).toNat - ((i : Int)).toNat = 0 from by omega, List.take_zero]

theorem extract_nil (op cl : Char) : extract op cl [] = [] := by
  have hfence : fenceTag.isPrefixOf (pyStrip ([] : List Char)) = false := rfl
  have hb : ([op].isPrefixOf (pyStrip ([] : List Char)) &&
      [cl].isSuffixOf (pyStrip ([] : List Char))) = false := rfl
  have hf : findIdx op (pyStrip ([] : List Char)) = none := rfl
  exact extract_no_open op cl [] hfence hb hf

theorem extract_fix (op cl : Char) (t : List Char)
    (hstrip : pyStrip t = t)
    (hfence : fenceTag.isPrefixOf t = false)
    (hcase : ([op].isPrefixOf t && [cl].isSuffixOf t) = true ∨ findIdx op t = none) :
    extract op cl t = t := by
  rcases hcase with hc | hc
  · rw [extract_already op cl t (by rwa [hstrip]) (by rwa [hstrip]), hstrip]
  · by_cases hbv : ([op].isPrefixOf t && [cl].isSuffixOf t) = true
    · rw [extract_already op cl t (by rwa [hstrip]) (by rwa [hstrip]), hstrip]
    · have hb : ([op].isPrefixOf t && [cl].isSuffixOf t) = false := by
        rwa [Bool.not_eq_true] at hbv
      rw [extract_no_open op cl t (by rwa [hstrip]) (by rwa [hstrip]) (by rwa [hstrip]),
        hstrip]

theorem occursIn_of_prefix (sep s : List Char) (h : sep.isPrefixOf s = true)
    (hs : s ≠ []) : occursIn sep s = true := by
  cases s with
  | nil => exact absurd rfl hs
  | cons c cs => simp only [occursIn, Bool.or_eq_true]; exact Or.inl h

theorem prefix_overlap_false (sep a b : List Char) (hne : a ≠ [])
    (hbf : borderFree sep) (hocc : occursIn sep a = false) :
    sep.isPrefixOf (a ++ (sep ++ b)) = false := by
  by_contra hc
  rw [Bool.not_eq_false] at hc
  have hpre : sep <+: a ++ (sep ++ b) := List.isPrefixOf_iff_prefix.mp hc
  have htake := List.prefix_iff_eq_take.mp hpre
  by_cases hlen : sep.length ≤ a.length
  · have hval : sep = a.take sep.length := by
      conv_lhs => rw [htake]
      rw [List.take_append_eq_append_take, Nat.sub_eq_zero_of_le hlen,
        List.take_zero, List.append_nil]
    have hpa : sep.isPrefixOf a = true :=
      List.isPrefixOf_iff_prefix.mpr (hval ▸ List.take_prefix _ _)
    have : occursIn sep a = true := occursIn_of_prefix sep a hpa hne
    rw [this] at hocc
    exact Bool.noConfusion hocc
  · push_neg at hlen
    have h1 : sep = a ++ sep.take (sep.length - a.length) := by
      conv_lhs => rw [htake]
      rw [List.take_append_eq_append_take,
        List.take_of_length_le (Nat.le_of_lt hlen)]
      congr 1
      rw [List.take_append_eq_append_take,
        show sep.length - a.length - sep.length = 0 from by omega,
        List.take_zero, List.append_nil]
    have h2 : sep.drop a.length = sep.take (sep.length - a.length) := by
      conv_lhs => rw [h1]
      exact List.drop_left a _
    exact hbf a.length hlen (List.length_pos.mpr hne) h2

theorem splitSubF_no_occur (c0 : Char) (sepRest : List Char) :
    ∀ (f : Nat) (s : List Char), occursIn (c0 :: sepRest) s = false →
      splitSubF c0 sepRest f s = [s] := by
  intro f
  induction f with
  | zero => intro s _; rfl
  | succ f ih =>
    intro s h
    cases s with
    | nil => rfl
    | cons c cs =>
      simp only [occursIn, Bool.or_eq_false_iff] at h
      unfold splitSubF
      rw [h.1]
      simp only [Bool.false_eq_true, if_false, ih cs h.2]

theorem splitSubF_first_occur (c0 : Char) (sepRest : List Char)
    (hbf : borderFree (c0 :: sepRest)) :
    ∀ (a : List Char) (b : List Char) (f : Nat),
      a.length + ((c0 :: sepRest).length + b.length) ≤ f →
      occursIn (c0 :: sepRest) a = false → occursIn (c0 :: sepRest) b = false →
      splitSubF c0 sepRest f (a ++ ((c0 :: sepRest) ++ b)) = [a, b] := by
  intro a
  induction a with
  | nil =>
    intro b f hf h1 h2
    cases f with
    | zero => simp at hf
    | succ f =>
      show splitSubF c0 sepRest (f + 1) (c0 :: (sepRest ++ b)) = [[], b]
      have hpre : (c0 :: sepRest).isPrefixOf (c0 :: (sepRest ++ b)) = true :=
        List.isPrefixOf_iff_prefix.mpr ⟨b, by simp⟩
      unfold splitSubF
      rw [hpre]
      simp only [if_true, List.drop_left, splitSubF_no_occur c0 sepRest f b h2]
  | cons x a ih =>
    intro b f hf h1 h2
    cases f with
    | zero => simp at hf
    | succ f =>
      simp only [occursIn, Bool.or_eq_false_iff] at h1
      have hnp : (c0 :: sepRest).isPrefixOf ((x :: a) ++ ((c0 :: sepRest) ++ b)) = false := by
        apply prefix_overlap_false
        · exact List.cons_ne_nil x a
        · exact hbf
        · simp only [occursIn, Bool.or_eq_false_iff]; exact h1
      have hstep : (x :: a) ++ ((c0 :: sepRest) ++ b) = x :: (a ++ ((c0 :: sepRest) ++ b)) := by
        simp
      rw [hstep] at hnp ⊢
      unfold splitSubF
      rw [hnp]
      simp only [Bool.false_eq_true, if_false]
      rw [ih b f (by simp only [List.length_cons] at hf ⊢; omega) h1.2 h2]

theorem splitFirstSub_first_occur (c0 : Char) (sepRest : List Char)
    (hbf : borderFree (c0 :: sepRest)) :
    ∀ (a b : List Char), occursIn (c0 :: sepRest) a = false →
      splitFirstSub (c0 :: sepRest) (a ++ ((c0 :: sepRest) ++ b)) = some (a, b) := by
  intro a
  induction a with
  | nil =>
    intro b _
    show splitFirstSub (c0 :: sepRest) (c0 :: (sepRest ++ b)) = some ([], b)
    have hpre : (c0 :: sepRest).isPrefixOf (c0 :: (sepRest ++ b)) = true :=
      List.isPrefixOf_iff_prefix.mpr ⟨b, by simp⟩
    unfold splitFirstSub
    rw [hpre]
    simp only [if_true, List.length_cons, Nat.add_sub_cancel, List.drop_left]
  | cons x a ih =>
    intro b h1
    simp only [occursIn, Bool.or_eq_false_iff] at h1
    have hnp : (c0 :: sepRest).isPrefixOf ((x :: a) ++ ((c0 :: sepRest) ++ b)) = false := by
      apply prefix_overlap_false
      · exact List.cons_ne_nil x a
      · exact hbf
      · simp only [occursIn, Bool.or_eq_false_iff]; exact h1
    have hstep : (x :: a) ++ ((c0 :: sepRest) ++ b) = x :: (a ++ ((c0 :: sepRest) ++ b)) := by
      simp
    rw [hstep] at hnp ⊢
    unfold splitFirstSub
    rw [hnp]
    simp only [Bool.false_eq_true, if_false]
    rw [ih b h1.2]
    rfl

theorem splitCharAux_headD (sep : Char) :
    ∀ (s cur : List Char),
      (splitCharAux sep cur s).headD [] = cur.reverse ++ s.takeWhile (fun c => c != sep) := by
  intro s
  induction s with
  | nil => intro cur; simp [splitCharAux]
  | cons c cs ih =>
    intro cur
    by_cases hc : c = sep
    · subst hc
      simp [splitCharAux, List.takeWhile_cons]
    · have hbne : (c != sep) = true := by simp [hc]
      simp only [splitCharAux, if_neg hc, List.takeWhile_cons, hbne, if_true]
      rw [ih (c :: cur)]
      simp

theorem splitChar_headD (sep : Char) (s : List Char) :
    (splitChar sep s).headD [] = s.takeWhile (fun c => c != sep) := by
  simpa using splitCharAux_headD sep s []

theorem pass1Line_mem (st : TD × List TD) (line : List Char) (td : TD)
    (h : td ∈ (pass1Line st line).2) : td ∈ st.2 ∨ td.complete = true := by
  unfold pass1Line at h
  dsimp only at h
  split at h
  · dsimp only at h
    split at h
    · split at h
      · rcases List.mem_append.mp h with h1 | h2
        · exact Or.inl h1
        · rename_i hcomp
          rw [List.mem_singleton.mp h2]
          exact Or.inr hcomp
      · exact Or.inl h
    · exact Or.inl h
  · split at h
    · exact Or.inl h
    · split at h
      · exact Or.inl h
      · exact Or.inl h

theorem foldl_pass1_mem :
    ∀ (lines : List (List Char)) (st : TD × List TD) (td : TD),
      td ∈ (lines.foldl pass1Line st).2 → td ∈ st.2 ∨ td.complete = true := by
  intro lines
  induction lines with
  | nil => intro st td h; exact Or.inl h
  | cons l ls ih =>
    intro st td h
    rcases ih (pass1Line st l) td h with h1 | h2
    · exact pass1Line_mem st l td h1
    · exact Or.inr h2

theorem pass1_complete (content : List Char) (td : TD) (h : td ∈ pass1 content) :
    td.complete = true := by
  unfold pass1 at h
  dsimp only at h
  split at h
  · rcases List.mem_append.mp h with h1 | h2
    · rcases foldl_pass1_mem _ _ _ h1 with h3 | h4
      · exact absurd h3 (List.not_mem_nil td)
      · exact h4
    · rename_i hcond
      rw [List.mem_singleton.mp h2]
      exact (Bool.and_eq_true .. ▸ hcond).2
  · rcases foldl_pass1_mem _ _ _ h with h3 | h4
    · exact absurd h3 (List.not_mem_nil td)
    · exact h4

/-!
## Claim theorems
-/

/-- C1 (counterexample): on the raw text `"no json here at all"` with expected
object shape, `generate_content` does *not* return the fixed default record
with engagement score 6 — the parse-failure branch builds a record with
engagement score 5 instead (`_get_default_content` is reached only when the
LLM call itself raises). -/
theorem c1_counterexample :
    objGet (S "engagement_score") (contentPipeline (S "no json here at all") (S "Blog Post")) ≠
      some (Json.intNum 6) := by
  intro h
  have h5 : objGet (S "engagement_score")
      (contentPipeline (S "no json here at all") (S "Blog Post")) = some (Json.intNum 5) := rfl
  rw [h5] at h
  injection h with h1
  injection h1 with h2
  exact absurd h2 (by decide)

/-- C1 (amended): on `"no json here at all"` the extractor returns the text
unchanged and parsing fails, and `generate_content` returns the inline
parse-failure record — content is the raw text, hashtags are those extracted
from the raw text (here none), and the engagement score is 5; the fixed
default record with score 6 belongs to the LLM-exception path only. -/
theorem c1_parse_failure_record :
    extract '{' '}' (S "no json here at all") = S "no json here at all" ∧
    jsonParse (cleanJson (S "no json here at all")) = none ∧
    contentPipeline (S "no json here at all") (S "Blog Post") =
      parseFailRecord (S "no json here at all") (S "Blog Post") ∧
    objGet (S "engagement_score")
      (parseFailRecord (S "no json here at all") (S "Blog Post")) = some (Json.intNum 5) ∧
    objGet (S "hashtags")
      (parseFailRecord (S "no json here at all") (S "Blog Post")) = some (Json.arr []) :=
  ⟨rfl, rfl, rfl, rfl, rfl⟩

/-- C2 (counterexample): a successfully parsed title list is returned without
any clamping — an LLM response whose candidate carries `seo_score` 42 is
returned with the 42 intact, outside `[1,10]`. -/
theorem c2_counterexample :
    titlesPipeline (S "[\x7b\"title\": \"T\", \"seo_score\": 42, \"reasoning\": \"r\"\x7d]") [] =
      [Json.obj [(S "title", Json.str (S "T")), (S "seo_score", Json.intNum 42),
                 (S "reasoning", Json.str (S "r"))]] ∧
    ¬((42 : Int) ≤ 10) :=
  ⟨rfl, by decide⟩

/-- C3 (counterexample): `generate_content` performs no shape check on a
successful parse — the syntactically valid non-mapping response `"[1, 2, 3]"`
is returned as the parsed array itself, not any fallback record. -/
theorem c3_counterexample :
    contentPipeline (S "[1, 2, 3]") (S "Blog Post") =
      Json.arr [Json.intNum 1, Json.intNum 2, Json.intNum 3] ∧
    ∀ fields, Json.arr [Json.intNum 1, Json.intNum 2, Json.intNum 3] ≠ Json.obj fields :=
  ⟨rfl, fun _ h => Json.noConfusion h⟩

/-- C4: the claim is right and the code is wrong.  On trimmed text containing
an opening `[` but no closing `]` (here `"abc [ def"`), the extraction step
returns the empty string, not the full trimmed text: `end_idx = rfind + 1`
makes the `end_idx != -1` guard unfalsifiable, so the slice `s[4:0]` is taken. -/
theorem c4_extract_empty :
    extract '[' ']' (S "abc [ def") = [] ∧ pyStrip (S "abc [ def") ≠ ([] : List Char) :=
  ⟨rfl, by decide⟩

/-- C5 (counterexample): after repair, the scenario-2 string still does not
parse as strict JSON — the single-quoted value `'X'` remains, so
`json.loads` fails on the repaired string. -/
theorem c5_counterexample :
    jsonParse (cleanJson (S "\x7btitle: " ++ [squote, 'X', squote] ++ S ", seo_score: 7,\x7d")) =
      none :=
  rfl

/-- C5 (amended): repair removes the trailing comma and double-quotes the bare
keys `title` and `seo_score`, leaving the single-quoted `'X'` untouched;
the repaired string nevertheless fails strict parsing (the known
single-quote limitation), so the parse step falls back. -/
theorem c5_repair_result :
    cleanJson (S "\x7btitle: " ++ [squote, 'X', squote] ++ S ", seo_score: 7,\x7d") =
      S "\x7b\"title\": " ++ [squote, 'X', squote] ++ S ", \"seo_score\": 7\x7d" ∧
    jsonParse (S "\x7b\"title\": " ++ [squote, 'X', squote] ++ S ", \"seo_score\": 7\x7d") =
      none :=
  ⟨rfl, rfl⟩

/-- C6 (counterexample): `_clean_json_string` is not a no-op on all valid
JSON — the valid input `["a,]"]` (an array holding the string `a,]`) contains
the substring `,]` inside its string literal, which the textual
`replace(',]', ']')` rewrites. -/
theorem c6_counterexample :
    (jsonParse (S "[\"a,]\"]")).isSome = true ∧ cleanJson (S "[\"a,]\"]") ≠ S "[\"a,]\"]" :=
  ⟨rfl, by decide⟩

/-- C7 (counterexample): the extraction step is not idempotent — on
`"```json```json x"` one application yields `"```json x"` and a second
application strips the fence again, yielding `"x"`. -/
theorem c7_counterexample :
    extract '[' ']' (extract '[' ']' (S "```json```json x")) ≠
      extract '[' ']' (S "```json```json x") := by
  have h1 : extract '[' ']' (S "```json```json x") = S "```json x" := rfl
  rw [h1]
  have h2 : extract '[' ']' (S "```json x") = S "x" := rfl
  rw [h2]
  decide

/-- C8 (counterexample): on a successful parse `generate_titles` returns the
whole parsed list with no truncation — the response `"[1, 2, 3, 4, 5, 6]"`
yields 6 returned candidates, more than 5. -/
theorem c8_counterexample :
    (titlesPipeline (S "[1, 2, 3, 4, 5, 6]") []).length = 6 ∧ ¬(6 ≤ 5) :=
  ⟨rfl, by decide⟩

/-- C9: if the LLM invocation raises, `generate_titles` returns exactly the
two fixed default candidates parameterized by the topic (scores 8 and 7), and
`generate_content` returns the fixed default record; both services are total
functions of the LLM outcome, with no caller-visible error path. -/
theorem c9_no_error_path (e : List Char) (topic title fmt : List Char) :
    generateTitles (Except.error e) topic =
      [Json.obj [(S "title", Json.str (S "The Ultimate Guide to " ++ topic)),
                 (S "seo_score", Json.intNum 8),
                 (S "reasoning",
                  Json.str (S "Ultimate guides perform well in search results (default fallback)"))],
       Json.obj [(S "title", Json.str (S "5 Proven Strategies for " ++ topic ++ S " Success")),
                 (S "seo_score", Json.intNum 7),
                 (S "reasoning", Json.str (S "Number-based titles attract clicks (default fallback)"))]] ∧
    generateContent (Except.error e) title topic fmt = defaultContent title topic fmt :=
  ⟨rfl, rfl⟩

/-- C10 (counterexample): on a line where the `"title":` marker occurs twice
before the first comma, the code truncates the extracted value at the second
marker (`split('"title":')[1]`), not at the first following comma as the
claim states: the code yields `ab` where the claim's formula yields
`ab title: cd`. -/
theorem c10_counterexample :
    titleFieldValue (S "\"title\": ab \"title\": cd, x") = some (S "ab") ∧
    claimTitleValue (S "\"title\": ab \"title\": cd, x") = some (S "ab title: cd") ∧
    some (S "ab") ≠ some (S "ab title: cd") :=
  ⟨rfl, rfl, by decide⟩

/-- C2 (amended): scores lie in `[1,10]` only on the fixed default and
terminal-fallback paths — the default titles carry 8 and 7, the default
content record carries 6, the parse-failure content record carries 5 and
at most 10 extracted hashtags; the success paths return the parsed value
untouched (no clamping or truncation, see the counterexample). -/
theorem c2_default_bounds (topic title fmt raw : List Char) :
    defaultTitles topic =
      [Json.obj [(S "title", Json.str (S "The Ultimate Guide to " ++ topic)),
                 (S "seo_score", Json.intNum 8),
                 (S "reasoning",
                  Json.str (S "Ultimate guides perform well in search results (default fallback)"))],
       Json.obj [(S "title", Json.str (S "5 Proven Strategies for " ++ topic ++ S " Success")),
                 (S "seo_score", Json.intNum 7),
                 (S "reasoning", Json.str (S "Number-based titles attract clicks (default fallback)"))]] ∧
    objGet (S "engagement_score") (defaultContent title topic fmt) = some (Json.intNum 6) ∧
    objGet (S "engagement_score") (parseFailRecord raw fmt) = some (Json.intNum 5) ∧
    objGet (S "hashtags") (parseFailRecord raw fmt) =
      some (Json.arr ((extractHashtags raw).map Json.str)) ∧
    (extractHashtags raw).length ≤ 10 :=
  ⟨rfl, rfl, rfl, rfl, by simp only [extractHashtags]; exact List.length_take_le _ _⟩

/-- C3 (amended): `generate_titles` does treat a syntactically valid
non-list parse as failure and returns the default titles, but
`generate_content` performs no shape check at all: whatever value parses —
mapping or not — is returned unchanged. -/
theorem c3_shape_check (raw topic fmt : List Char) (v : Json) :
    (jsonParse (cleanJson (extract '[' ']' raw)) = some v → (∀ l, v ≠ Json.arr l) →
      titlesPipeline raw topic = defaultTitles topic) ∧
    (jsonParse (cleanJson (extract '{' '}' raw)) = some v →
      contentPipeline raw fmt = v) :=
  ⟨fun h hv => titlesPipeline_parse_not_arr raw topic v h hv,
   fun h => contentPipeline_parse_some raw fmt v h⟩

/-- C3 (witness): the response `"7"` parses as the integer 7; the titles
service falls back to the defaults while the content service returns the
bare 7. -/
theorem c3_shape_check_witness :
    titlesPipeline (S "7") (S "topic") = defaultTitles (S "topic") ∧
    contentPipeline (S "7") (S "fmt") = Json.intNum 7 :=
  ⟨(c3_shape_check (S "7") (S "topic") (S "fmt") (Json.intNum 7)).1 rfl
      (fun _ h => Json.noConfusion h),
   (c3_shape_check (S "7") (S "topic") (S "fmt") (Json.intNum 7)).2 rfl⟩

/-- C8 (amended): `generate_titles` never re-sorts — on a successful array
parse it returns exactly the parsed list (hence possibly more than 5
candidates, see the counterexample), and on every other path (non-list
parse, fallback line scan, fixed defaults) it returns at most 5. -/
theorem c8_order_and_length (raw topic : List Char) :
    (∃ l, jsonParse (cleanJson (extract '[' ']' raw)) = some (Json.arr l) ∧
      titlesPipeline raw topic = l) ∨
    (titlesPipeline raw topic).length ≤ 5 := by
  cases hp : jsonParse (cleanJson (extract '[' ']' raw)) with
  | none =>
    right
    rw [titlesPipeline_parse_none raw topic hp]
    by_cases hf : (fallbackTitles raw).isEmpty
    · rw [if_pos hf, defaultTitles_length]; omega
    · rw [if_neg hf]; exact fallbackTitles_le_five raw
  | some v =>
    cases v with
    | arr l => exact Or.inl ⟨l, hp ▸ rfl, titlesPipeline_parse_arr raw topic l hp⟩
    | null =>
      right
      rw [titlesPipeline_parse_not_arr raw topic _ hp (fun _ h => Json.noConfusion h),
        defaultTitles_length]
      omega
    | bool b =>
      right
      rw [titlesPipeline_parse_not_arr raw topic _ hp (fun _ h => Json.noConfusion h),
        defaultTitles_length]
      omega
    | intNum n =>
      right
      rw [titlesPipeline_parse_not_arr raw topic _ hp (fun _ h => Json.noConfusion h),
        defaultTitles_length]
      omega
    | floatLit t =>
      right
      rw [titlesPipeline_parse_not_arr raw topic _ hp (fun _ h => Json.noConfusion h),
        defaultTitles_length]
      omega
    | str s =>
      right
      rw [titlesPipeline_parse_not_arr raw topic _ hp (fun _ h => Json.noConfusion h),
        defaultTitles_length]
      omega
    | obj fields =>
      right
      rw [titlesPipeline_parse_not_arr raw topic _ hp (fun _ h => Json.noConfusion h),
        defaultTitles_length]
      omega

/-- C6 (amended): `_clean_json_string` returns its input unchanged whenever
the input — valid JSON or not — contains no `,]` or `,}` substring and no
occurrence of the bare-key pattern; valid JSON can violate these side
conditions only inside string literals (see the counterexample), which is
exactly when the repair corrupts it. -/
theorem c6_no_op_conditions (s : List Char)
    (hvalid : (jsonParse s).isSome = true)
    (h1 : occursIn (',' :: [']']) s = false)
    (h2 : occursIn (',' :: ['}']) s = false)
    (h3 : hasKeyMatch s = false) :
    cleanJson s = s := by
  have e1 : replaceSub ',' [']'] [']'] s = s :=
    replaceSubF_no_occur ',' [']'] [']'] s.length s h1
  have e2 : replaceSub ',' ['}'] ['}'] s = s :=
    replaceSubF_no_occur ',' ['}'] ['}'] s.length s h2
  have e3 : cleanKeys s = s := cleanKeysF_no_match s.length s h3
  unfold cleanJson
  rw [e1, e2, e3]

/-- C6 (witness): the already-valid string `"[1, 2]"` satisfies the side
conditions and is returned unchanged. -/
theorem c6_no_op_witness :
    (jsonParse (S "[1, 2]")).isSome = true ∧ cleanJson (S "[1, 2]") = S "[1, 2]" :=
  ⟨rfl, c6_no_op_conditions (S "[1, 2]") rfl (by decide) (by decide) (by decide)⟩

/-- C7 (amended): the extraction step is idempotent on every raw text whose
trimmed form does not begin with the ```` ```json ```` fence marker (for any
non-whitespace, non-backtick delimiter pair); a fenced input can need two
passes, because the fence branch's output is returned without the
delimiter-span search (see the counterexample). -/
theorem c7_extract_idempotent (op cl : Char) (raw : List Char)
    (h1 : op ≠ btick) (h2 : op ≠ cl)
    (h3 : isPySpace op = false) (h4 : isPySpace cl = false)
    (h5 : fenceTag.isPrefixOf (pyStrip raw) = false) :
    extract op cl (extract op cl raw) = extract op cl raw := by
  have hsi : pyStrip (pyStrip raw) = pyStrip raw := pyStrip_idem raw
  by_cases hbv : ([op].isPrefixOf (pyStrip raw) && [cl].isSuffixOf (pyStrip raw)) = true
  · rw [extract_already op cl raw h5 hbv]
    exact extract_fix op cl (pyStrip raw) hsi h5 (Or.inl hbv)
  · have hb : ([op].isPrefixOf (pyStrip raw) && [cl].isSuffixOf (pyStrip raw)) = false := by
      rwa [Bool.not_eq_true] at hbv
    cases hfo : findIdx op (pyStrip raw) with
    | none =>
      rw [extract_no_open op cl raw h5 hb hfo]
      exact extract_fix op cl (pyStrip raw) hsi h5 (Or.inr hfo)
    | some i =>
      cases hrf : rfindIdx cl (pyStrip raw) with
      | none =>
        rw [extract_span_no_close op cl raw i h5 hb hfo hrf]
        exact extract_nil op cl
      | some j =>
        rw [extract_span_some op cl raw i j h5 hb hfo hrf]
        obtain ⟨p1, q1, hs1, hl1⟩ := findIdx_decomp op (pyStrip raw) i hfo
        obtain ⟨p2, q2, hs2, hl2⟩ := rfindIdx_decomp cl (pyStrip raw) j hrf
        rcases Nat.lt_trichotomy i j with hij | hij | hij
        · obtain ⟨mid, hmid⟩ :=
            slice_shape (pyStrip raw) op cl i j p1 q1 p2 q2 hs1 hl1 hs2 hl2 hij
          rw [hmid]
          apply extract_fix
          · exact pyStrip_sandwich op cl mid h3 h4
          · exact fence_not_prefix_cons op _ h1
          · left
            have hpre : [op].isPrefixOf (op :: (mid ++ [cl])) = true := by
              simp [List.isPrefixOf]
            have hsuf : [cl].isSuffixOf (op :: (mid ++ [cl])) = true := by
              simp [List.isSuffixOf, List.isPrefixOf]
            rw [hpre, hsuf]
            rfl
        · exfalso
          subst hij
          have hlen : p1.length = p2.length := by rw [hl1, hl2]
          have hinj := List.append_inj (hs1.symm.trans hs2) hlen
          have hcons := hinj.2
          injection hcons with hopcl
          exact h2 hopcl
        · rw [show j + 1 - i = 0 from by omega, List.take_zero]
          exact extract_nil op cl

/-- C7 (witness): an unfenced input on which extraction is idempotent. -/
theorem c7_extract_idempotent_witness :
    extract '[' ']' (extract '[' ']' (S "hello [1] there")) =
      extract '[' ']' (S "hello [1] there") :=
  c7_extract_idempotent '[' ']' (S "hello [1] there") (by decide) (by decide) (by decide)
    (by decide) (by decide)

/-- C10 (amended): on a line where the `"title":` marker occurs exactly once
(no occurrence in the text before or after it), the extracted title value is
the text between the marker and the first following comma with every
double-quote removed and surrounding whitespace stripped — exactly the
claim's formula — while a second marker occurrence truncates earlier (see the
counterexample); and an accumulated candidate record is only emitted once it
has all three of the fields title, seo_score and reasoning. -/
theorem c10_line_scan (a b content : List Char) (td : TD) :
    (occursIn titleMarker a = false → occursIn titleMarker b = false →
      titleFieldValue (a ++ (titleMarker ++ b)) = claimTitleValue (a ++ (titleMarker ++ b))) ∧
    (td ∈ pass1 content → td.complete = true) := by
  constructor
  · intro h1 h2
    have hbf : borderFree ('"' :: titleMarker.drop 1) := by unfold borderFree; decide
    have hsplit : splitSub '"' (titleMarker.drop 1) (a ++ (titleMarker ++ b)) = [a, b] := by
      show splitSubF '"' (titleMarker.drop 1) (a ++ (titleMarker ++ b)).length
        (a ++ (titleMarker ++ b)) = [a, b]
      have hlen : a.length + (('"' :: titleMarker.drop 1).length + b.length) ≤
          (a ++ (titleMarker ++ b)).length := by
        have hm : titleMarker.length = 8 := rfl
        have hm2 : ('"' :: titleMarker.drop 1).length = 8 := rfl
        simp only [List.length_append, hm, hm2]
        omega
      exact splitSubF_first_occur '"' (titleMarker.drop 1) hbf a b _ hlen h1 h2
    have hfirst : splitFirstSub titleMarker (a ++ (titleMarker ++ b)) = some (a, b) :=
      splitFirstSub_first_occur '"' (titleMarker.drop 1) hbf a b h1
    unfold titleFieldValue claimTitleValue
    rw [hsplit, hfirst]
    show some (pyStrip (removeChar '"' ((splitChar ',' b).headD []))) =
      some (pyStrip (removeChar '"' (b.takeWhile (fun c => c != ','))))
    rw [splitChar_headD]
  · exact fun h => pass1_complete content td h

/-- C10 (witness): a single-marker line where code and claim formulas agree,
and a concrete emitted record that is complete. -/
theorem c10_line_scan_witness :
    titleFieldValue (S "x " ++ (titleMarker ++ S " y, z")) =
      claimTitleValue (S "x " ++ (titleMarker ++ S " y, z")) ∧
    TD.complete { title := some (S "t1 is long"), seo := some 5, reasoning := some (S "r") } =
      true := by
  constructor
  · exact (c10_line_scan (S "x ") (S " y, z") [] {}).1 (by decide) (by decide)
  · apply (c10_line_scan [] [] (S "\"title\": t1 is long, x\n\"seo_score\": 5\n\"reasoning\": r")
      { title := some (S "t1 is long"), seo := some 5, reasoning := some (S "r") }).2
    rw [show pass1 (S "\"title\": t1 is long, x\n\"seo_score\": 5\n\"reasoning\": r") =
      [{ title := some (S "t1 is long"), seo := some 5, reasoning := some (S "r") }] from rfl]
    exact List.mem_singleton.mpr rfl

end Apex
